import Mathlib

set_option maxRecDepth 100000

/-!
Shallow embedding of `rs_dashboard.py` (a Streamlit relative-strength stock
screener) and verification of the specification's claims about it.

Modelling conventions:
* Python floats are modelled as exact rationals (`ℚ`); the claims under
  verification concern control flow and algebraic structure, not binary
  floating-point rounding.
* Network interaction is modelled by passing each function the response it
  would have received; a raised-and-uncaught Python exception is modelled as
  `Except.error ()`, a caught/absorbed failure as `none` / `Except.ok none`.
* `pandas.Series.ewm(span=s, adjust=True).mean().iloc[-1]` is the weighted
  average of the closes with weights `(1-α)^i` over reversed positions,
  `α = 2/(s+1)`; it is reproduced exactly over `ℚ`.
-/

namespace RsDashboard

/-- One daily aggregate bar as consumed by the code: closing price `c` and
volume `v` (the fields of the JSON payload actually read). -/
structure Bar where
  c : ℚ
  v : ℚ
  deriving DecidableEq

/-- The record returned by `get_pct_change_and_emas` on success. -/
structure PriceResult where
  ticker : String
  pct : ℚ
  avg_vol : ℚ
  price : ℚ
  ema_50 : ℚ
  ema_200 : ℚ
  deriving DecidableEq

/-- `pd.Series(closes).ewm(span=span).mean().iloc[-1]` with pandas' default
`adjust=True`: `Σ (1-α)^i · c[n-1-i] / Σ (1-α)^i`, `α = 2/(span+1)`. -/
def ewmSpanLast (span : ℕ) (closes : List ℚ) : ℚ :=
  let α : ℚ := 2 / ((span : ℚ) + 1)
  let rev := closes.reverse
  let ws := (List.range rev.length).map fun i => (1 - α) ^ i
  (List.zipWith (· * ·) ws rev).sum / ws.sum

/-- `get_pct_change_and_emas` (src lines 87-110).  The whole body runs inside
`try: ... except: return None`, so a transport failure, an unparseable
payload or a missing "results" key all yield `None`; this is modelled by the
`resp = none` case.  A parsed bar list shorter than 200 yields `None`; a zero
first close would raise `ZeroDivisionError` in `pct`, which the bare
`except` also turns into `None`. -/
def get_pct_change_and_emas (resp : Option (List Bar)) (ticker : String) :
    Option PriceResult :=
  match resp with
  | none => none
  | some results =>
    let closes := results.map Bar.c
    let vols := results.map Bar.v
    if closes.length < 200 then none
    else if closes.headI = 0 then none
    else
      some { ticker := ticker
             pct := (closes.getLastI - closes.headI) / closes.headI
             avg_vol := vols.sum / (vols.length : ℚ)
             price := closes.getLastI
             ema_50 := ewmSpanLast 50 closes
             ema_200 := ewmSpanLast 200 closes }

/-- Raw fundamentals payload entry (`data['results'][0]`): each field the code
reads is optional in the wire format. -/
structure RawFund where
  market_cap : Option ℚ
  eps_growth : Option ℚ
  eps_growth_5y : Option ℚ
  sales_growth_5y : Option ℚ
  roi : Option ℚ
  institutional_ownership : Option ℚ
  deriving DecidableEq

/-- The dictionary `get_fundamentals` builds: every missing field has been
defaulted to `0` by `fundamentals.get(key, 0)`. -/
structure Fundamentals where
  market_cap : ℚ
  eps_growth : ℚ
  eps_growth_5y : ℚ
  sales_growth_5y : ℚ
  roi : ℚ
  institutional_ownership : ℚ
  deriving DecidableEq

/-- Body of an HTTP response to the financials request: either not JSON
(`res.json()` raises) or JSON whose `results` key parses to an optional list
of entries (`none` models a payload without a usable `results` list). -/
inductive FundBody where
  | notJson
  | json (results : Option (List RawFund))
  deriving DecidableEq

/-- Outcome of `requests.get` for the financials request: a raised transport
exception, or a response with a status code and body. -/
inductive FundResp where
  | exn
  | ok (status : ℕ) (body : FundBody)
  deriving DecidableEq

/-- `get_fundamentals` (src lines 67-84).  `requests.get` (line 69) and
`res.json()` (line 72) sit OUTSIDE the `try`, so a transport exception or a
non-JSON body propagates (`.error ()`); a non-200 status returns `None`
before parsing; only the `data['results'][0]` extraction is guarded by the
`try/except`, so a missing or empty `results` list yields `None`. -/
def get_fundamentals (resp : FundResp) : Except Unit (Option Fundamentals) :=
  match resp with
  | .exn => .error ()
  | .ok status body =>
    if status ≠ 200 then .ok none
    else
      match body with
      | .notJson => .error ()
      | .json none => .ok none
      | .json (some []) => .ok none
      | .json (some (f :: _)) =>
        .ok (some { market_cap := f.market_cap.getD 0
                    eps_growth := f.eps_growth.getD 0
                    eps_growth_5y := f.eps_growth_5y.getD 0
                    sales_growth_5y := f.sales_growth_5y.getD 0
                    roi := f.roi.getD 0
                    institutional_ownership := f.institutional_ownership.getD 0 })

/-- The sidebar configuration values consumed by the gate predicate
(src lines 21-30). -/
structure Config where
  min_price : ℚ
  min_avg_volume : ℚ
  min_market_cap : ℚ
  min_eps_growth : ℚ
  min_eps_5y_growth : ℚ
  min_sales_5y_growth : ℚ
  min_roi : ℚ
  min_inst_ownership : ℚ
  deriving DecidableEq

/-- The filter conjunction of src lines 142-153, in source order. -/
def passes_gate (cfg : Config) (r : PriceResult) (f : Fundamentals) : Bool :=
  decide (cfg.min_price ≤ r.price) &&
  decide (cfg.min_avg_volume ≤ r.avg_vol) &&
  decide (cfg.min_market_cap ≤ f.market_cap) &&
  decide (cfg.min_eps_growth ≤ f.eps_growth) &&
  decide (cfg.min_eps_5y_growth ≤ f.eps_growth_5y) &&
  decide (cfg.min_sales_5y_growth ≤ f.sales_growth_5y) &&
  decide (cfg.min_roi ≤ f.roi) &&
  decide (cfg.min_inst_ownership ≤ f.institutional_ownership) &&
  decide (r.ema_50 < r.price) &&
  decide (r.ema_200 < r.price)

/-- Python `round(x, 2)`: round half to even at two decimal places (modelled
exactly over `ℚ`; binary-float representation error is out of scope). -/
def round2 (x : ℚ) : ℚ :=
  let y := x * 100
  let f : ℤ := ⌊y⌋
  let k : ℤ :=
    if y - f < 1/2 then f
    else if 1/2 < y - f then f + 1
    else if f % 2 = 0 then f else f + 1
  (k : ℚ) / 100

/-- Python `int(x)`: truncation toward zero. -/
def truncInt (x : ℚ) : ℤ := x.num.tdiv (x.den : ℤ)

/-- One row of `rs_list` (src lines 155-167), one field per dictionary key. -/
structure Row where
  ticker : String
  price : ℚ
  return_pct : ℚ
  avg_volume : ℤ
  rs_score : ℚ
  market_cap_b : ℚ
  eps_growth : ℚ
  eps_growth_5y : ℚ
  sales_growth_5y : ℚ
  roi : ℚ
  inst_ownership : ℚ
  deriving DecidableEq

/-- Builds a row of `rs_list` from a price result, fundamentals and the
already-computed `rs_score` (src lines 155-167). -/
def mkRow (r : PriceResult) (f : Fundamentals) (rs : ℚ) : Row :=
  { ticker := r.ticker
    price := round2 r.price
    return_pct := round2 (r.pct * 100)
    avg_volume := truncInt r.avg_vol
    rs_score := round2 rs
    market_cap_b := round2 (f.market_cap / 1000000000)
    eps_growth := f.eps_growth
    eps_growth_5y := f.eps_growth_5y
    sales_growth_5y := f.sales_growth_5y
    roi := f.roi
    inst_ownership := f.institutional_ownership }

/-- Processing of one completed future in the main loop (src lines 134-167):
a missing price result skips the ticker; `get_fundamentals` may raise
(uncaught, `.error`) or return `None` (skip); a gate-passing candidate's
`rs_score = result.pct / benchmark.pct` raises `ZeroDivisionError` when the
benchmark return is zero (src line 154), else produces the appended row. -/
def tickerStep (cfg : Config) (bench_pct : ℚ) (priceOf : String → Option PriceResult)
    (fundOf : String → FundResp) (t : String) : Except Unit (Option Row) :=
  match priceOf t with
  | none => .ok none
  | some r =>
    match get_fundamentals (fundOf t) with
    | .error e => .error e
    | .ok none => .ok none
    | .ok (some f) =>
      if passes_gate cfg r f then
        if bench_pct = 0 then .error ()
        else .ok (some (mkRow r f (r.pct / bench_pct)))
      else .ok none

/-- The main collection loop (src lines 133-167) over the tickers in the
order their futures complete; an uncaught exception at any ticker aborts the
whole batch, otherwise the gate-passing rows accumulate in completion
order. -/
def scanRows (cfg : Config) (bench_pct : ℚ) (priceOf : String → Option PriceResult)
    (fundOf : String → FundResp) : List String → Except Unit (List Row)
  | [] => .ok []
  | t :: rest =>
    match tickerStep cfg bench_pct priceOf fundOf t with
    | .error e => .error e
    | .ok none => scanRows cfg bench_pct priceOf fundOf rest
    | .ok (some row) =>
      (scanRows cfg bench_pct priceOf fundOf rest).map (row :: ·)

/-- Sort order of `df.sort_values("RS Score", ascending=False)`: descending
by the (rounded) RS score column. -/
def byScoreDesc (a b : Row) : Prop := b.rs_score ≤ a.rs_score

instance : DecidableRel byScoreDesc := fun a b =>
  inferInstanceAs (Decidable (b.rs_score ≤ a.rs_score))

instance : IsTotal Row byScoreDesc := ⟨fun a b => le_total b.rs_score a.rs_score⟩

instance : IsTrans Row byScoreDesc :=
  ⟨fun _ _ _ hab hbc => le_trans hbc hab⟩

/-- Strict version of the RS-score order, used for uniqueness of sorted
lists when all scores are distinct. -/
def byScoreStrict (a b : Row) : Prop := b.rs_score < a.rs_score

instance : IsAntisymm Row byScoreStrict :=
  ⟨fun _ _ h1 h2 => absurd (lt_trans h1 h2) (lt_irrefl _)⟩

/-- Src lines 174-176: `df.sort_values("RS Score", ascending=False)` then
`df.head(max(1, int(len(df) * 0.1)))`.  pandas' tie order under the default
quicksort is implementation-defined; a deterministic stable insertion sort
stands in for it (any fixed choice suffices for the claims below).
`int(len(df) * 0.1)` equals `len / 10` in exact arithmetic for every
reachable length (at most 10000 tickers are scanned).  When `rs_list` is
empty, `pd.DataFrame([])` has no columns at all and
`sort_values("RS Score")` raises a `KeyError`, modelled as `.error ()`. -/
def scanOutput (cfg : Config) (bench_pct : ℚ) (priceOf : String → Option PriceResult)
    (fundOf : String → FundResp) (order : List String) : Except Unit (List Row) :=
  match scanRows cfg bench_pct priceOf fundOf order with
  | .error e => .error e
  | .ok rows =>
    if rows.isEmpty then .error ()
    else .ok ((rows.insertionSort byScoreDesc).take (max 1 (rows.length / 10)))

/-- The top-level execution block (src lines 113-183): the benchmark series
is fetched and scored first; when it fails (`None`), `st.error` is shown and
NO scan is performed (`.ok none` — the whole else-branch, lines 122-183, is
skipped); otherwise the scan runs against the benchmark's `pct`. -/
def runApp (cfg : Config) (benchResp : Option (List Bar))
    (priceOf : String → Option PriceResult) (fundOf : String → FundResp)
    (order : List String) : Except Unit (Option (List Row)) :=
  match get_pct_change_and_emas benchResp "SPY" with
  | none => .ok none
  | some bench =>
    (scanOutput cfg bench.pct priceOf fundOf order).map some

/-- One entry of the paginated ticker catalog; `primary_exchange` and
`type` are read with `.get` (absent tolerated), `ticker` with `[...]`
(assumed present for entries that pass the filter). -/
structure TickerItem where
  primary_exchange : Option String
  type : Option String
  ticker : String
  deriving DecidableEq

/-- The membership test of src line 55. -/
def wantedItem (it : TickerItem) : Bool :=
  (it.primary_exchange == some "XNYS" || it.primary_exchange == some "XNAS") &&
  it.type == some "CS"

/-- One response of the paging loop in `get_ticker_list`: a raised transport
exception, a non-JSON body (`res.json()` raises), or parsed JSON with an
optional `results` list (`data.get("results", [])`) and an optional
continuation (`data.get("next_url")`). -/
inductive PageResp where
  | exn
  | notJson
  | json (results : Option (List TickerItem)) (next : Option Unit)
  deriving DecidableEq

/-- The `while url:` paging loop of src lines 51-59, consuming one response
per request.  Nothing in the loop is guarded: a transport exception or
non-JSON body propagates and aborts the whole listing with no partial
result; a JSON page contributes its filtered tickers and the loop ends
exactly when `next_url` is absent. -/
def fetchLoop : List PageResp → List String → Except Unit (List String)
  | [], acc => .ok acc
  | p :: rest, acc =>
    match p with
    | .exn => .error ()
    | .notJson => .error ()
    | .json results next =>
      let acc2 := acc ++ ((results.getD []).filter wantedItem).map TickerItem.ticker
      match next with
      | none => .ok acc2
      | some _ => fetchLoop rest acc2

/-- State of the on-disk ticker cache as observed by `is_cache_valid` and
`get_ticker_list`: whether the file exists, its age in seconds
(`(utcnow - mtime).total_seconds()`), and its parse result (`none` models a
corrupt file on which `json.load` raises). -/
structure CacheState where
  cacheExists : Bool
  ageSeconds : ℚ
  content : Option (List String)
  deriving DecidableEq

/-- `is_cache_valid` (src lines 38-42). -/
def is_cache_valid (st : CacheState) (max_age_hours : ℚ) : Bool :=
  st.cacheExists && decide (st.ageSeconds < max_age_hours * 3600)

/-- Result of `get_ticker_list`: the returned tickers plus what was written
to the cache file (`none` when the cache was read instead of refetched). -/
structure ListingOutcome where
  tickers : List String
  written : Option (List String)
  deriving DecidableEq

/-- `get_ticker_list` (src lines 44-64).  A valid (existing, fresh) cache is
loaded with `json.load` — which raises, uncaught, on a corrupt file — and no
network request is made; otherwise the paging loop runs and its result
overwrites the cache file wholesale. -/
def get_ticker_list (st : CacheState) (pages : List PageResp) :
    Except Unit ListingOutcome :=
  if is_cache_valid st 24 then
    match st.content with
    | some ts => .ok ⟨ts, none⟩
    | none => .error ()
  else
    (fetchLoop pages []).map fun ts => ⟨ts, some ts⟩

/-!  Definitions modelled from the spec's words, for refinement comparison
against the source functions above.  -/

/-- Modelled from the spec (§4.4): the sub-period return
`w_k = (c[n-1] - c[n-1-offset_k]) / c[n-1-offset_k]`, defined only when
`n-1-offset_k ≥ 0`. -/
def spec_sub_return (closes : List ℚ) (offset : ℕ) : Option ℚ :=
  if offset + 1 ≤ closes.length then
    let base := closes.getD (closes.length - 1 - offset) 0
    some ((closes.getLastI - base) / base)
  else none

/-- Modelled from the spec (§4.4): `weighted_return = Σ weight_k · w_k` over
offsets 21/63/126/252 with weights 0.30/0.25/0.25/0.20; `Invalid` (`none`)
if any offset exceeds the available history. -/
def spec_weighted_return (closes : List ℚ) : Option ℚ := do
  let w21 ← spec_sub_return closes 21
  let w63 ← spec_sub_return closes 63
  let w126 ← spec_sub_return closes 126
  let w252 ← spec_sub_return closes 252
  pure ((3/10) * w21 + (1/4) * w63 + (1/4) * w126 + (1/5) * w252)

/-- A scored candidate as the spec's ranking pipeline (§4.6) sees it:
its weighted return and whether it passes all gates. -/
structure SpecCandidate where
  ticker : String
  score : ℚ
  passes : Bool
  deriving DecidableEq

/-- Modelled from the spec (§4.6): percentile rank of score `x` over the
whole scored universe: `(#scores ≤ x) / total × 100`. -/
def spec_rs_percentile (scores : List ℚ) (x : ℚ) : ℚ :=
  ((scores.countP fun y => decide (y ≤ x) : ℚ) / (scores.length : ℚ)) * 100

/-- Spec candidate order: descending by score. -/
def specByScoreDesc (a b : SpecCandidate) : Prop := b.score ≤ a.score

instance : DecidableRel specByScoreDesc := fun a b =>
  inferInstanceAs (Decidable (b.score ≤ a.score))

/-- Modelled from the spec (§4.6): emitted candidates are those with
`passes_filter` and `rs_percentile ≥ cutoff` (percentile over the whole
scored universe), sorted descending by score. -/
def spec_emitted (cands : List SpecCandidate) (cutoff : ℚ) : List SpecCandidate :=
  (cands.filter fun c =>
      c.passes &&
      decide (cutoff ≤ spec_rs_percentile (cands.map SpecCandidate.score) c.score)).insertionSort
    specByScoreDesc

/-!  Concrete fixtures used by witnesses and counterexamples.  -/

/-- A threshold configuration with every threshold positive and small. -/
def cfgEx : Config := ⟨5, 1, 1, 1, 1, 1, 1, 1⟩

/-- A collected price result that clears every price-side gate. -/
def rA : PriceResult := ⟨"A", 2, 10, 100, 50, 40⟩

/-- A second gate-clearing price result with a distinct return. -/
def rB : PriceResult := ⟨"B", 3, 10, 100, 50, 40⟩

/-- A price result with the highest return of the examples but a last price
below `cfgEx.min_price`, so it fails the gate. -/
def rBfail : PriceResult := ⟨"B", 100, 10, 1, 50, 40⟩

/-- A gate-clearing price result whose return ties `rA` exactly. -/
def rBtie : PriceResult := ⟨"B", 2, 10, 100, 50, 40⟩

/-- A fundamentals payload entry with every optional field present. -/
def rawFull : RawFund :=
  ⟨some 2000000000, some 10, some 10, some 10, some 10, some 10⟩

/-- The dictionary `get_fundamentals` builds from `rawFull`. -/
def fFull : Fundamentals := ⟨2000000000, 10, 10, 10, 10, 10⟩

/-- A successful fundamentals response carrying `rawFull`. -/
def fundRespFull : FundResp := .ok 200 (.json (some [rawFull]))

/-- Fundamentals fetch succeeding for every ticker. -/
def fundOfEx : String → FundResp := fun _ => fundRespFull

/-- Price data collected for ticker A only. -/
def priceOfEx : String → Option PriceResult :=
  fun t => if t = "A" then some rA else none

/-- Price data collected for tickers A and B (distinct returns). -/
def priceOfAB : String → Option PriceResult :=
  fun t => if t = "A" then some rA else if t = "B" then some rB else none

/-- Price data where B has the better return but fails the price gate. -/
def priceOfC2 : String → Option PriceResult :=
  fun t => if t = "A" then some rA else if t = "B" then some rBfail else none

/-- Price data where A and B tie exactly on their returns. -/
def priceOfTie : String → Option PriceResult :=
  fun t => if t = "A" then some rA else if t = "B" then some rBtie else none

/-- 200 daily bars, flat at 1 until a final close of 2: enough history for
the code's 200-bar gate but short of the spec's 252-day lookback; net
return 1 over the window. -/
def bars200 : List Bar := List.replicate 199 ⟨1, 1⟩ ++ [⟨2, 1⟩]

/-- 200 daily bars with zero net change over the window. -/
def benchZeroBars : List Bar := List.replicate 199 ⟨1, 1⟩ ++ [⟨1, 1⟩]

/-- The row `mkRow rA fFull 2` appended for ticker A when the benchmark
return is 1. -/
def rowA : Row := ⟨"A", 100, 200, 10, 2, 2, 10, 10, 10, 10, 10⟩

/-- The row appended for ticker B (`rB`) when the benchmark return is 1. -/
def rowB : Row := ⟨"B", 100, 300, 10, 3, 2, 10, 10, 10, 10, 10⟩

/-- The row appended for ticker B (`rBtie`) when the benchmark return is 1:
its RS score ties `rowA` exactly. -/
def rowBtie : Row := ⟨"B", 100, 200, 10, 2, 2, 10, 10, 10, 10, 10⟩

/-- The scored universe of the C2 counterexample as the spec's ranking
pipeline sees it: A scores 2 and passes the gates, B scores 100 and fails
them. -/
def specCandsC2 : List SpecCandidate := [⟨"A", 2, true⟩, ⟨"B", 100, false⟩]

/-- A fundamentals response map that raises a transport exception for A and
succeeds for every other ticker. -/
def fundOfExnA : String → FundResp :=
  fun t => if t = "A" then .exn else fundRespFull

/-- A fundamentals response map returning 404 for every ticker. -/
def fundOfNone : String → FundResp := fun _ => .ok 404 (.json none)

/-- A fundamentals payload entry missing its `market_cap` field. -/
def rawNoMcap : RawFund := ⟨none, some 10, some 10, some 10, some 10, some 10⟩

/-- The dictionary built from `rawNoMcap`: the missing field became 0. -/
def fNoMcap : Fundamentals := ⟨0, 10, 10, 10, 10, 10⟩

/-- A threshold configuration whose EPS-growth threshold is non-positive. -/
def cfgNegEps : Config := ⟨5, 1, 1, -1, 1, 1, 1, 1⟩

/-- A fundamentals payload entry missing its `eps_growth` field. -/
def rawNoEps : RawFund := ⟨some 2000000000, none, some 10, some 10, some 10, some 10⟩

/-- The dictionary built from `rawNoEps`: the missing field became 0. -/
def fNoEps : Fundamentals := ⟨2000000000, 0, 10, 10, 10, 10⟩

/-- A catalog item on an allowed exchange with the allowed asset type. -/
def itemAAA : TickerItem := ⟨some "XNYS", some "CS", "AAA"⟩

/-- A single successful final catalog page carrying `itemAAA`. -/
def pagesGood : List PageResp := [.json (some [itemAAA]) none]

/-!  Evaluation helper lemmas (rational arithmetic does not reduce in the
kernel, so concrete rows and returns are computed via `norm_num`).  -/

/-- `round2` fixes every integer. -/
theorem round2_intCast (n : ℤ) : round2 ((n : ℚ)) = (n : ℚ) := by
  have h : ((n : ℚ)) * 100 = ((100 * n : ℤ) : ℚ) := by push_cast; ring
  simp only [round2, h, Int.floor_intCast]
  rw [if_pos (by rw [sub_self]; norm_num)]
  rw [show (((100 * n : ℤ) : ℚ)) = 100 * (n : ℚ) by push_cast; ring]
  rw [mul_div_cancel_left₀ _ (by norm_num : (100 : ℚ) ≠ 0)]

/-- `round2` fixes numeral literals. -/
theorem round2_ofNat (n : ℕ) [n.AtLeastTwo] :
    round2 (OfNat.ofNat n : ℚ) = OfNat.ofNat n := by
  have h := round2_intCast (OfNat.ofNat n)
  rwa [Int.cast_ofNat] at h

/-- Evaluation of a row whose inputs come out to small integers. -/
theorem mkRow_eval (t : String) (p ret rs : ℕ) [p.AtLeastTwo] [ret.AtLeastTwo]
    [rs.AtLeastTwo] (r : PriceResult) (f : Fundamentals)
    (hticker : r.ticker = t) (hprice : r.price = OfNat.ofNat p)
    (hret : r.pct * 100 = OfNat.ofNat ret) (havg : r.avg_vol = 10)
    (hmc : f.market_cap = 2000000000) :
    mkRow r f (OfNat.ofNat rs) =
      ⟨t, OfNat.ofNat p, OfNat.ofNat ret, 10, OfNat.ofNat rs, 2, f.eps_growth,
        f.eps_growth_5y, f.sales_growth_5y, f.roi, f.institutional_ownership⟩ := by
  simp only [mkRow, hticker, hprice, hret, havg, hmc]
  rw [show (2000000000 : ℚ) / 1000000000 = 2 by norm_num]
  rw [round2_ofNat p, round2_ofNat ret, round2_ofNat rs, round2_ofNat 2]
  rw [show truncInt 10 = 10 by decide]

/-- The row appended for `rA` against benchmark return 1. -/
theorem mkRow_rA : mkRow rA fFull (rA.pct / 1) = rowA := by
  rw [show rA.pct / 1 = (2 : ℚ) by norm_num [rA]]
  exact mkRow_eval "A" 100 200 2 rA fFull rfl rfl (by norm_num [rA]) rfl rfl

/-- The row appended for `rB` against benchmark return 1. -/
theorem mkRow_rB : mkRow rB fFull (rB.pct / 1) = rowB := by
  rw [show rB.pct / 1 = (3 : ℚ) by norm_num [rB]]
  exact mkRow_eval "B" 100 300 3 rB fFull rfl rfl (by norm_num [rB]) rfl rfl

/-- The row appended for `rBtie` against benchmark return 1. -/
theorem mkRow_rBtie : mkRow rBtie fFull (rBtie.pct / 1) = rowBtie := by
  rw [show rBtie.pct / 1 = (2 : ℚ) by norm_num [rBtie]]
  exact mkRow_eval "B" 100 200 2 rBtie fFull rfl rfl (by norm_num [rBtie]) rfl rfl

/-- Scoring a 200-bar series that is flat at `a` and closes at `b`: the
computed return is the full-window return `(b - a) / a`. -/
theorem get_pct_concat (a b v : ℚ) (t : String) (ha : a ≠ 0) :
    ∃ pr, get_pct_change_and_emas
        (some (List.replicate 199 (⟨a, v⟩ : Bar) ++ [(⟨b, v⟩ : Bar)])) t
        = some pr ∧ pr.pct = (b - a) / a := by
  have hmap : (List.replicate 199 (⟨a, v⟩ : Bar) ++ [(⟨b, v⟩ : Bar)]).map Bar.c
      = List.replicate 199 a ++ [b] := by simp
  have hlen : ¬ (List.replicate 199 a ++ [b]).length < 200 := by simp
  have hhead : (List.replicate 199 a ++ [b]).headI = a := by
    rw [show (199 : ℕ) = 198 + 1 from rfl, List.replicate_succ, List.cons_append,
      List.headI_cons]
  have hlast : (List.replicate 199 a ++ [b]).getLastI = b := by
    rw [List.getLastI_eq_getLast?, List.getLast?_concat]
  simp only [get_pct_change_and_emas, hmap]
  rw [if_neg hlen, hhead, if_neg ha]
  exact ⟨_, rfl, by simp only [hlast]⟩

/-- The single-ticker step for A under `priceOfEx`/`fundOfEx` and benchmark
return 1. -/
theorem stepA : tickerStep cfgEx 1 priceOfEx fundOfEx "A" = .ok (some rowA) := by
  rw [show tickerStep cfgEx 1 priceOfEx fundOfEx "A"
      = .ok (some (mkRow rA fFull (rA.pct / 1))) from rfl, mkRow_rA]

/-- The single-ticker step for A under `priceOfAB`. -/
theorem stepA_AB : tickerStep cfgEx 1 priceOfAB fundOfEx "A" = .ok (some rowA) := by
  rw [show tickerStep cfgEx 1 priceOfAB fundOfEx "A"
      = .ok (some (mkRow rA fFull (rA.pct / 1))) from rfl, mkRow_rA]

/-- The single-ticker step for B under `priceOfAB`. -/
theorem stepB_AB : tickerStep cfgEx 1 priceOfAB fundOfEx "B" = .ok (some rowB) := by
  rw [show tickerStep cfgEx 1 priceOfAB fundOfEx "B"
      = .ok (some (mkRow rB fFull (rB.pct / 1))) from rfl, mkRow_rB]

/-- The single-ticker step for A under `priceOfTie`. -/
theorem stepA_Tie : tickerStep cfgEx 1 priceOfTie fundOfEx "A" = .ok (some rowA) := by
  rw [show tickerStep cfgEx 1 priceOfTie fundOfEx "A"
      = .ok (some (mkRow rA fFull (rA.pct / 1))) from rfl, mkRow_rA]

/-- The single-ticker step for B under `priceOfTie`. -/
theorem stepB_Tie : tickerStep cfgEx 1 priceOfTie fundOfEx "B" = .ok (some rowBtie) := by
  rw [show tickerStep cfgEx 1 priceOfTie fundOfEx "B"
      = .ok (some (mkRow rBtie fFull (rBtie.pct / 1))) from rfl, mkRow_rBtie]

/-- The single-ticker step for B under `priceOfC2` skips B: it fails the
price gate. -/
theorem stepB_C2 : tickerStep cfgEx 1 priceOfC2 fundOfEx "B" = .ok none := rfl

/-- The single-ticker step for A under `priceOfC2`. -/
theorem stepA_C2 : tickerStep cfgEx 1 priceOfC2 fundOfEx "A" = .ok (some rowA) := by
  rw [show tickerStep cfgEx 1 priceOfC2 fundOfEx "A"
      = .ok (some (mkRow rA fFull (rA.pct / 1))) from rfl, mkRow_rA]

/-- Collected rows of the one-candidate example run. -/
theorem scanA : scanRows cfgEx 1 priceOfEx fundOfEx ["A"] = .ok [rowA] := by
  simp [scanRows, stepA, Except.map]

/-- Collected rows for completion order A, B with distinct scores. -/
theorem scanAB : scanRows cfgEx 1 priceOfAB fundOfEx ["A", "B"] = .ok [rowA, rowB] := by
  simp [scanRows, stepA_AB, stepB_AB, Except.map]

/-- Collected rows for the C2 example: B is gated out inline. -/
theorem scanC2 : scanRows cfgEx 1 priceOfC2 fundOfEx ["A", "B"] = .ok [rowA] := by
  simp [scanRows, stepA_C2, stepB_C2, Except.map]

/-- Collected rows for completion order A, B with tied scores. -/
theorem scanTieAB :
    scanRows cfgEx 1 priceOfTie fundOfEx ["A", "B"] = .ok [rowA, rowBtie] := by
  simp [scanRows, stepA_Tie, stepB_Tie, Except.map]

/-- Collected rows for completion order B, A with tied scores. -/
theorem scanTieBA :
    scanRows cfgEx 1 priceOfTie fundOfEx ["B", "A"] = .ok [rowBtie, rowA] := by
  simp [scanRows, stepA_Tie, stepB_Tie, Except.map]

/-!  C1: the momentum score.  -/

/-- C1 (amended): the code's momentum score is the single full-window return
`(c[n-1] - c[0]) / c[0]` computed by `get_pct_change_and_emas`; scoring
fails (`none`) exactly when the payload is unusable, fewer than 200 bars
came back, or the first close is zero.  No multi-horizon weighting with
offsets 21/63/126/252 exists in the code. -/
theorem momentum_score_is_single_full_window_return :
    (∀ t, get_pct_change_and_emas none t = none) ∧
    ∀ (results : List Bar) (t : String),
      (get_pct_change_and_emas (some results) t).map PriceResult.pct =
        if 200 ≤ results.length ∧ (results.map Bar.c).headI ≠ 0 then
          some (((results.map Bar.c).getLastI - (results.map Bar.c).headI) /
            (results.map Bar.c).headI)
        else none := by
  refine ⟨fun t => rfl, fun results t => ?_⟩
  rw [get_pct_change_and_emas]
  by_cases h1 : (results.map Bar.c).length < 200
  · have h1' : ¬ 200 ≤ results.length := by
      rw [List.length_map] at h1; omega
    simp [h1, h1']
  · have h1' : 200 ≤ results.length := by
      rw [List.length_map] at h1; omega
    by_cases h2 : (results.map Bar.c).headI = 0
    · simp [h1, h2]
    · simp [h1, h1', h2]

/-- C1 counterexample: a 200-bar series is accepted and scored by the code
even though the spec's 252-day lookback offset exceeds the available history
(the spec's weighted return is `Invalid` there, and the claim requires
scoring to fail). -/
theorem momentum_score_cex :
    (get_pct_change_and_emas (some bars200) "X").isSome = true ∧
    spec_weighted_return (bars200.map Bar.c) = none :=
  ⟨rfl, rfl⟩

/-!  C2: selection happens after inline gating, with no percentile.  -/

/-- When the collection loop succeeds with a non-empty row list, the emitted
result is the descending-by-RS-score sort of those rows truncated to
`max 1 (m / 10)` entries. -/
theorem scanOutput_eq_take (cfg : Config) (bench_pct : ℚ)
    (priceOf : String → Option PriceResult) (fundOf : String → FundResp)
    (order : List String) (rows : List Row)
    (h : scanRows cfg bench_pct priceOf fundOf order = .ok rows)
    (hne : rows ≠ []) :
    scanOutput cfg bench_pct priceOf fundOf order =
      .ok ((rows.insertionSort byScoreDesc).take (max 1 (rows.length / 10))) := by
  rw [scanOutput, h]
  cases rows with
  | nil => exact absurd rfl hne
  | cons a l => rfl

/-- C2 (amended): no percentile over the scored universe is ever computed;
gates are applied inline as each future completes, and the emitted result
set is the top `max 1 (m / 10)` of the `m` gate-passing rows sorted
descending by rounded RS score. -/
theorem emitted_is_top_decile_of_filtered (cfg : Config) (bench_pct : ℚ)
    (priceOf : String → Option PriceResult) (fundOf : String → FundResp)
    (order : List String) (rows : List Row)
    (h : scanRows cfg bench_pct priceOf fundOf order = .ok rows)
    (hne : rows ≠ []) :
    scanOutput cfg bench_pct priceOf fundOf order =
      .ok ((rows.insertionSort byScoreDesc).take (max 1 (rows.length / 10))) :=
  scanOutput_eq_take cfg bench_pct priceOf fundOf order rows h hne

/-- Witness for C2's theorem at a concrete one-candidate run. -/
theorem emitted_is_top_decile_of_filtered_witness :
    scanRows cfgEx 1 priceOfEx fundOfEx ["A"] = .ok [rowA] ∧
    ([rowA] : List Row) ≠ [] ∧
    scanOutput cfgEx 1 priceOfEx fundOfEx ["A"] =
      .ok ((([rowA] : List Row).insertionSort byScoreDesc).take
        (max 1 (([rowA] : List Row).length / 10))) :=
  ⟨scanA, by decide,
   emitted_is_top_decile_of_filtered cfgEx 1 priceOfEx fundOfEx ["A"] [rowA]
     scanA (by decide)⟩

/-- C2 counterexample: with two scored candidates where only the low-return
one passes the gate, the code emits that candidate, while the claim's
selection rule (percentile over the whole scored universe, 90th-percentile
cutoff) emits nothing — A's percentile over the scored universe is 50. -/
theorem percentile_before_gate_cex :
    (scanOutput cfgEx 1 priceOfC2 fundOfEx ["A", "B"]).map (List.map Row.ticker) =
      .ok ["A"] ∧
    spec_emitted specCandsC2 90 = [] ∧
    (["A"] : List String) ≠ (spec_emitted specCandsC2 90).map SpecCandidate.ticker := by
  have hpct : spec_rs_percentile ([2, 100] : List ℚ) 2 = 50 := by
    rw [spec_rs_percentile]
    rw [show (([2, 100] : List ℚ).countP fun y => decide (y ≤ 2)) = 1 from rfl]
    rw [show ([2, 100] : List ℚ).length = 2 from rfl]
    norm_num
  have hemit : spec_emitted specCandsC2 90 = [] := by
    rw [spec_emitted]
    rw [show specCandsC2.filter (fun c =>
        c.passes && decide (90 ≤ spec_rs_percentile
          (specCandsC2.map SpecCandidate.score) c.score)) = [] from by
      rw [show specCandsC2.map SpecCandidate.score = ([2, 100] : List ℚ) from rfl]
      rw [show specCandsC2 = [⟨"A", 2, true⟩, ⟨"B", 100, false⟩] from rfl]
      rw [List.filter_cons, List.filter_cons, List.filter_nil]
      rw [show ((⟨"A", 2, true⟩ : SpecCandidate).passes &&
          decide (90 ≤ spec_rs_percentile ([2, 100] : List ℚ)
            (⟨"A", 2, true⟩ : SpecCandidate).score)) =
          (true && decide ((90 : ℚ) ≤ spec_rs_percentile ([2, 100] : List ℚ) 2)) from rfl]
      rw [hpct]
      norm_num]
    rfl
  refine ⟨?_, hemit, by rw [hemit]; simp⟩
  rw [show scanOutput cfgEx 1 priceOfC2 fundOfEx ["A", "B"] =
      .ok ((([rowA] : List Row).insertionSort byScoreDesc).take
        (max 1 (([rowA] : List Row).length / 10))) from
    scanOutput_eq_take cfgEx 1 priceOfC2 fundOfEx ["A", "B"] [rowA] scanC2 (by decide)]
  rfl

/-!  C3: a zero benchmark return raises `ZeroDivisionError`.  -/

/-- If any ticker of the batch raises at its step, the collection loop
raises. -/
theorem scanRows_error_of_mem (cfg : Config) (bench_pct : ℚ)
    (priceOf : String → Option PriceResult) (fundOf : String → FundResp)
    (t : String) (order : List String) (hmem : t ∈ order)
    (hstep : tickerStep cfg bench_pct priceOf fundOf t = .error ()) :
    scanRows cfg bench_pct priceOf fundOf order = .error () := by
  induction order with
  | nil => cases hmem
  | cons hd tl ih =>
    rcases List.mem_cons.mp hmem with heq | hmem2
    · subst heq
      simp [scanRows, hstep]
    · cases hstep2 : tickerStep cfg bench_pct priceOf fundOf hd with
      | error e => cases e; simp [scanRows, hstep2]
      | ok o =>
        cases o with
        | none => simpa [scanRows, hstep2] using ih hmem2
        | some row => simp [scanRows, hstep2, ih hmem2, Except.map]

/-- C3 (amended): when the benchmark's return is zero and some processed
candidate passes every gate, `rs_score = pct / benchmark.pct` raises
`ZeroDivisionError` and the run aborts; there is no fallback to absolute
scoring. -/
theorem benchmark_zero_raises (cfg : Config)
    (priceOf : String → Option PriceResult) (fundOf : String → FundResp)
    (order : List String) (t : String) (r : PriceResult) (f : Fundamentals)
    (hmem : t ∈ order) (hp : priceOf t = some r)
    (hf : get_fundamentals (fundOf t) = .ok (some f))
    (hg : passes_gate cfg r f = true) :
    scanOutput cfg 0 priceOf fundOf order = .error () := by
  have hstep : tickerStep cfg 0 priceOf fundOf t = .error () := by
    simp [tickerStep, hp, hf, hg]
  rw [scanOutput, scanRows_error_of_mem cfg 0 priceOf fundOf t order hmem hstep]

/-- Witness for C3's theorem at a concrete one-candidate run. -/
theorem benchmark_zero_raises_witness :
    "A" ∈ (["A"] : List String) ∧
    priceOfEx "A" = some rA ∧
    get_fundamentals (fundOfEx "A") = .ok (some fFull) ∧
    passes_gate cfgEx rA fFull = true ∧
    scanOutput cfgEx 0 priceOfEx fundOfEx ["A"] = .error () :=
  ⟨by decide, rfl, rfl, by decide,
   benchmark_zero_raises cfgEx priceOfEx fundOfEx ["A"] "A" rA fFull
     (by decide) rfl rfl (by decide)⟩

/-- C3 counterexample: a full run whose benchmark series parses to 200 bars
with zero net change (weighted return 0) aborts with a division error
instead of falling back to absolute scoring. -/
theorem benchmark_zero_raises_cex :
    runApp cfgEx (some benchZeroBars) priceOfEx fundOfEx ["A"] = .error () := by
  obtain ⟨pr, hpr, hpct⟩ := get_pct_concat 1 1 1 "SPY" one_ne_zero
  have hb : get_pct_change_and_emas (some benchZeroBars) "SPY" = some pr := hpr
  have hpct0 : pr.pct = 0 := by rw [hpct]; norm_num
  have hstep : tickerStep cfgEx 0 priceOfEx fundOfEx "A" = .error () := rfl
  have hrows : scanRows cfgEx 0 priceOfEx fundOfEx ["A"] = .error () :=
    scanRows_error_of_mem cfgEx 0 priceOfEx fundOfEx "A" ["A"] (by decide) hstep
  rw [runApp, hb]
  show Except.map some (scanOutput cfgEx pr.pct priceOfEx fundOfEx ["A"]) = .error ()
  rw [hpct0, scanOutput, hrows]
  rfl

/-!  C4: missing fundamentals fields default to 0, not fail-gate.  -/

/-- C4 (amended): an absent optional fundamentals field is read as the value
0 by `fundamentals.get(field, 0)`, so the candidate fails the corresponding
gate exactly when that threshold is positive; with a non-positive threshold
a candidate with a missing field can pass (see the counterexample). -/
theorem missing_field_fails_gate_iff_threshold_positive (cfg : Config)
    (r : PriceResult) (raw : RawFund) (f : Fundamentals)
    (hf : get_fundamentals (.ok 200 (.json (some [raw]))) = .ok (some f))
    (hmiss :
      (raw.market_cap = none ∧ 0 < cfg.min_market_cap) ∨
      (raw.eps_growth = none ∧ 0 < cfg.min_eps_growth) ∨
      (raw.eps_growth_5y = none ∧ 0 < cfg.min_eps_5y_growth) ∨
      (raw.sales_growth_5y = none ∧ 0 < cfg.min_sales_5y_growth) ∨
      (raw.roi = none ∧ 0 < cfg.min_roi) ∨
      (raw.institutional_ownership = none ∧ 0 < cfg.min_inst_ownership)) :
    passes_gate cfg r f = false := by
  have hfeq : f = { market_cap := raw.market_cap.getD 0
                    eps_growth := raw.eps_growth.getD 0
                    eps_growth_5y := raw.eps_growth_5y.getD 0
                    sales_growth_5y := raw.sales_growth_5y.getD 0
                    roi := raw.roi.getD 0
                    institutional_ownership := raw.institutional_ownership.getD 0 } := by
    rw [show get_fundamentals (.ok 200 (.json (some [raw]))) =
        .ok (some { market_cap := raw.market_cap.getD 0
                    eps_growth := raw.eps_growth.getD 0
                    eps_growth_5y := raw.eps_growth_5y.getD 0
                    sales_growth_5y := raw.sales_growth_5y.getD 0
                    roi := raw.roi.getD 0
                    institutional_ownership := raw.institutional_ownership.getD 0 })
      from rfl] at hf
    injection hf with h2
    injection h2 with h3
    exact h3.symm
  subst hfeq
  rw [← Bool.not_eq_true]
  intro htrue
  simp only [passes_gate, Bool.and_eq_true, decide_eq_true_eq] at htrue
  obtain ⟨⟨⟨⟨⟨⟨⟨⟨⟨_, _⟩, hmc⟩, heps⟩, heps5⟩, hsales⟩, hroi⟩, hinst⟩, _⟩, _⟩ := htrue
  rcases hmiss with ⟨h1, h2⟩ | ⟨h1, h2⟩ | ⟨h1, h2⟩ | ⟨h1, h2⟩ | ⟨h1, h2⟩ | ⟨h1, h2⟩
  · rw [h1, Option.getD_none] at hmc; linarith
  · rw [h1, Option.getD_none] at heps; linarith
  · rw [h1, Option.getD_none] at heps5; linarith
  · rw [h1, Option.getD_none] at hsales; linarith
  · rw [h1, Option.getD_none] at hroi; linarith
  · rw [h1, Option.getD_none] at hinst; linarith

/-- Witness for C4's theorem: `rawNoMcap` lacks `market_cap` and
`cfgEx.min_market_cap = 1 > 0`, so the gate fails. -/
theorem missing_field_fails_gate_witness :
    get_fundamentals (.ok 200 (.json (some [rawNoMcap]))) = .ok (some fNoMcap) ∧
    (rawNoMcap.market_cap = none ∧ 0 < cfgEx.min_market_cap) ∧
    passes_gate cfgEx rA fNoMcap = false :=
  ⟨rfl, ⟨rfl, by decide⟩,
   missing_field_fails_gate_iff_threshold_positive cfgEx rA rawNoMcap fNoMcap rfl
     (Or.inl ⟨rfl, by decide⟩)⟩

/-- C4 counterexample: with a non-positive EPS-growth threshold, a candidate
whose fundamentals record lacks `eps_growth` still has `passes_filter =
true`, because the absent field was defaulted to 0, not treated as
fails-gate. -/
theorem missing_field_passes_cex :
    rawNoEps.eps_growth = none ∧
    get_fundamentals (.ok 200 (.json (some [rawNoEps]))) = .ok (some fNoEps) ∧
    passes_gate cfgNegEps rA fNoEps = true :=
  ⟨rfl, rfl, by decide⟩

/-!  C5: benchmark failure skips the whole scan.  -/

/-- C5 (amended): when the benchmark fetch/score fails, the app shows an
error and performs no scan at all — no candidate is fetched, scored or
ranked, and no absolute-percentile fallback exists. -/
theorem benchmark_failure_skips_scan (cfg : Config) (benchResp : Option (List Bar))
    (priceOf : String → Option PriceResult) (fundOf : String → FundResp)
    (order : List String)
    (h : get_pct_change_and_emas benchResp "SPY" = none) :
    runApp cfg benchResp priceOf fundOf order = .ok none := by
  rw [runApp, h]

/-- Witness for C5's theorem: a failed benchmark fetch. -/
theorem benchmark_failure_skips_scan_witness :
    get_pct_change_and_emas none "SPY" = none ∧
    runApp cfgEx none priceOfEx fundOfEx ["A"] = .ok none :=
  ⟨rfl, benchmark_failure_skips_scan cfgEx none priceOfEx fundOfEx ["A"] rfl⟩

/-- C5 counterexample: with the benchmark fetch failed the run emits no
result set at all (`.ok none`), even though the same candidate data under a
healthy benchmark produces a ranked row — the scan is skipped, not degraded
to absolute ranking. -/
theorem benchmark_failure_cex :
    runApp cfgEx none priceOfEx fundOfEx ["A"] = .ok none ∧
    (runApp cfgEx (some bars200) priceOfEx fundOfEx ["A"]).map
        (Option.map (List.map Row.ticker)) = .ok (some ["A"]) := by
  refine ⟨rfl, ?_⟩
  obtain ⟨pr, hpr, hpct⟩ := get_pct_concat 1 2 1 "SPY" one_ne_zero
  have hb : get_pct_change_and_emas (some bars200) "SPY" = some pr := hpr
  have hpct1 : pr.pct = 1 := by rw [hpct]; norm_num
  rw [runApp, hb]
  show (Except.map some (scanOutput cfgEx pr.pct priceOfEx fundOfEx ["A"])).map
      (Option.map (List.map Row.ticker)) = .ok (some ["A"])
  rw [hpct1, scanOutput, scanA]
  rfl

/-!  C6: fundamentals failure handling.  -/

/-- C6 (amended): a non-success status or a JSON payload without a usable
`results` entry yields `None`, and the main loop then skips the ticker
(locally absorbed); but a transport exception or a non-JSON body is raised
outside the `try` block and is NOT absorbed (see the counterexample). -/
theorem fundamentals_nonsuccess_absorbed :
    (∀ s body, s ≠ 200 → get_fundamentals (.ok s body) = .ok none) ∧
    (get_fundamentals (.ok 200 (.json none)) = .ok none) ∧
    (get_fundamentals (.ok 200 (.json (some []))) = .ok none) ∧
    (∀ cfg bench_pct priceOf fundOf t rest,
      get_fundamentals (fundOf t) = .ok none →
      scanRows cfg bench_pct priceOf fundOf (t :: rest) =
        scanRows cfg bench_pct priceOf fundOf rest) := by
  refine ⟨fun s body hs => ?_, rfl, rfl, fun cfg bp priceOf fundOf t rest hfund => ?_⟩
  · simp only [get_fundamentals]
    rw [if_pos hs]
  · cases hp : priceOf t with
    | none => simp [scanRows, tickerStep, hp]
    | some r => simp [scanRows, tickerStep, hp, hfund]

/-- Witness for C6's theorem: a 404 response is absorbed and the ticker is
skipped while the rest of the batch proceeds. -/
theorem fundamentals_nonsuccess_absorbed_witness :
    ((404 : ℕ) ≠ 200 ∧ get_fundamentals (.ok 404 (.json none)) = .ok none) ∧
    (get_fundamentals (fundOfNone "B") = .ok none ∧
      scanRows cfgEx 1 priceOfEx fundOfNone ["B", "A"] =
        scanRows cfgEx 1 priceOfEx fundOfNone ["A"]) :=
  ⟨⟨by decide, fundamentals_nonsuccess_absorbed.1 404 (.json none) (by decide)⟩,
   ⟨rfl, fundamentals_nonsuccess_absorbed.2.2.2 cfgEx 1 priceOfEx fundOfNone "B" ["A"]
     rfl⟩⟩

/-- C6 counterexample: a transport failure of the fundamentals fetch raises
(`requests.get` sits outside the `try`), and with it the whole batch aborts
— ticker B, whose data is fine, is lost with it. -/
theorem fundamentals_transport_aborts_cex :
    get_fundamentals .exn = .error () ∧
    scanRows cfgEx 1 priceOfAB fundOfExnA ["A", "B"] = .error () :=
  ⟨rfl, rfl⟩

/-!  C7: paging failures in the universe listing.  -/

/-- C7 (amended): a JSON page with no usable `results` list contributes
nothing, and pagination ends (returning what was gathered so far) exactly
when `next_url` is absent; but a transport error or non-JSON payload raises
and aborts the whole listing, losing the partial set — and no warning
mechanism exists in the listing at all. -/
theorem paging_failure_behavior :
    (∀ rest acc items, fetchLoop (.json (some items) none :: rest) acc =
        .ok (acc ++ (items.filter wantedItem).map TickerItem.ticker)) ∧
    (∀ rest acc, fetchLoop (.json none none :: rest) acc = .ok acc) ∧
    (∀ rest acc, fetchLoop (.exn :: rest) acc = .error ()) ∧
    (∀ rest acc, fetchLoop (.notJson :: rest) acc = .error ()) := by
  refine ⟨fun rest acc items => rfl, fun rest acc => ?_, fun _ _ => rfl, fun _ _ => rfl⟩
  simp [fetchLoop]

/-- C7 counterexample: a transport error on the second page aborts the whole
listing and loses page one's tickers, though page one alone shows the
partial set that the claim requires to survive. -/
theorem paging_failure_cex :
    fetchLoop [.json (some [itemAAA]) (some ()), .exn] [] = .error () ∧
    fetchLoop pagesGood [] = .ok ["AAA"] :=
  ⟨rfl, rfl⟩

/-!  C8: the ticker cache.  -/

/-- C8 (amended): a fresh parseable cache is served with no network access
and nothing written; any invalid cache (missing or stale) triggers a full
refetch whose result overwrites the cache file; but a corrupt cache within
the TTL window raises an uncaught parse error instead of refetching (see
the counterexample). -/
theorem cache_behavior (st : CacheState) (pages : List PageResp) :
    (∀ (age : ℚ) ts pages2, age < 86400 →
      get_ticker_list ⟨true, age, some ts⟩ pages2 = .ok ⟨ts, none⟩) ∧
    (is_cache_valid st 24 = false →
      get_ticker_list st pages = (fetchLoop pages []).map fun ts => ⟨ts, some ts⟩) := by
  constructor
  · intro age ts pages2 hage
    rw [get_ticker_list]
    rw [if_pos (by
      rw [is_cache_valid]
      simp only [Bool.true_and]
      rw [show (24 : ℚ) * 3600 = 86400 by norm_num]
      exact decide_eq_true hage)]
  · intro hv
    rw [get_ticker_list, if_neg (by rw [hv]; exact Bool.false_ne_true)]

/-- Witness for C8's theorem: a fresh cache hit and a missing-cache
refetch. -/
theorem cache_behavior_witness :
    ((0 : ℚ) < 86400 ∧
      get_ticker_list ⟨true, 0, some ["AAA"]⟩ [] = .ok ⟨["AAA"], none⟩) ∧
    (is_cache_valid ⟨false, 0, none⟩ 24 = false ∧
      get_ticker_list ⟨false, 0, none⟩ pagesGood =
        (fetchLoop pagesGood []).map fun ts => ⟨ts, some ts⟩) :=
  ⟨⟨by norm_num,
    (cache_behavior ⟨false, 0, none⟩ pagesGood).1 0 ["AAA"] [] (by norm_num)⟩,
   ⟨by decide, (cache_behavior ⟨false, 0, none⟩ pagesGood).2 (by decide)⟩⟩

/-- C8 counterexample: a corrupt cache file inside the TTL window makes the
listing raise (`json.load` is unguarded) instead of treating the cache as
unavailable and refetching — the refetch itself would have succeeded. -/
theorem corrupt_cache_fatal_cex :
    get_ticker_list ⟨true, 0, none⟩ pagesGood = .error () ∧
    fetchLoop pagesGood [] = .ok ["AAA"] := by
  refine ⟨?_, rfl⟩
  rw [get_ticker_list, if_pos (by
    rw [is_cache_valid]
    simp only [Bool.true_and]
    rw [show (24 : ℚ) * 3600 = 86400 by norm_num]
    exact decide_eq_true (by norm_num))]

/-!  C9: determinism across completion orders.  -/

/-- Relation between two scan results: both raised, or both succeeded with
the same rows up to permutation. -/
def sameUpToPerm : Except Unit (List Row) → Except Unit (List Row) → Prop
  | .error _, .error _ => True
  | .ok l1, .ok l2 => l1.Perm l2
  | _, _ => False

/-- `sameUpToPerm` is reflexive. -/
theorem sameUpToPerm_refl (e : Except Unit (List Row)) : sameUpToPerm e e := by
  cases e with
  | error e => trivial
  | ok l => exact List.Perm.refl l

/-- `sameUpToPerm` is transitive. -/
theorem sameUpToPerm_trans {e1 e2 e3 : Except Unit (List Row)}
    (h1 : sameUpToPerm e1 e2) (h2 : sameUpToPerm e2 e3) : sameUpToPerm e1 e3 := by
  cases e1 <;> cases e2 <;> cases e3 <;> simp_all [sameUpToPerm]
  exact h1.trans h2

/-- Consing a row onto both sides preserves `sameUpToPerm`. -/
theorem sameUpToPerm_map_cons (row : Row) {e1 e2 : Except Unit (List Row)}
    (h : sameUpToPerm e1 e2) :
    sameUpToPerm (e1.map (row :: ·)) (e2.map (row :: ·)) := by
  cases e1 <;> cases e2 <;> simp_all [sameUpToPerm, Except.map]

/-- The collection loop, run over two completion orders that are
permutations of each other, either raises in both or collects the same rows
up to permutation. -/
theorem scanRows_perm (cfg : Config) (bp : ℚ)
    (priceOf : String → Option PriceResult) (fundOf : String → FundResp)
    {o1 o2 : List String} (h : o1.Perm o2) :
    sameUpToPerm (scanRows cfg bp priceOf fundOf o1)
      (scanRows cfg bp priceOf fundOf o2) := by
  induction h with
  | nil => exact List.Perm.refl []
  | cons x h ih =>
    cases hstep : tickerStep cfg bp priceOf fundOf x with
    | error e => cases e; simp [scanRows, hstep, sameUpToPerm]
    | ok o =>
      cases o with
      | none => simpa [scanRows, hstep] using ih
      | some row =>
        simp only [scanRows, hstep]
        exact sameUpToPerm_map_cons row ih
  | swap x y l =>
    cases hx : tickerStep cfg bp priceOf fundOf x <;>
      cases hy : tickerStep cfg bp priceOf fundOf y
    case error.error ex ey =>
      cases ex; cases ey; simp [scanRows, hx, hy, sameUpToPerm]
    case error.ok ex oy =>
      cases ex
      cases oy with
      | none => simp [scanRows, hx, hy, sameUpToPerm]
      | some rowy =>
        cases hl : scanRows cfg bp priceOf fundOf l <;>
          simp [scanRows, hx, hy, hl, sameUpToPerm, Except.map]
    case ok.error ox ey =>
      cases ey
      cases ox with
      | none => simp [scanRows, hx, hy, sameUpToPerm]
      | some rowx =>
        cases hl : scanRows cfg bp priceOf fundOf l <;>
          simp [scanRows, hx, hy, hl, sameUpToPerm, Except.map]
    case ok.ok ox oy =>
      cases ox <;> cases oy
      case none.none => simpa [scanRows, hx, hy] using sameUpToPerm_refl _
      case none.some rowy =>
        simpa [scanRows, hx, hy] using sameUpToPerm_refl _
      case some.none rowx =>
        simpa [scanRows, hx, hy] using sameUpToPerm_refl _
      case some.some rowx rowy =>
        cases hl : scanRows cfg bp priceOf fundOf l with
        | error e => simp [scanRows, hx, hy, hl, sameUpToPerm, Except.map]
        | ok rows =>
          simp only [scanRows, hx, hy, hl, Except.map]
          exact List.Perm.swap rowx rowy rows
  | trans h1 h2 ih1 ih2 => exact sameUpToPerm_trans ih1 ih2

/-- A list sorted descending by RS score whose scores are pairwise distinct
is sorted strictly. -/
theorem sorted_strict_of_nodup_scores {s : List Row}
    (hs : List.Sorted byScoreDesc s) (hnd : (s.map Row.rs_score).Nodup) :
    List.Sorted byScoreStrict s := by
  have hne : s.Pairwise fun a b => a.rs_score ≠ b.rs_score :=
    List.pairwise_map.mp hnd
  exact (hs.and hne).imp fun h =>
    lt_of_le_of_ne h.1 fun heq => h.2 heq.symm

/-- Two permuted row lists with pairwise-distinct RS scores sort to the same
list. -/
theorem insertionSort_eq_of_perm_of_nodup_scores {l1 l2 : List Row}
    (hperm : l1.Perm l2) (hnd : (l1.map Row.rs_score).Nodup) :
    l1.insertionSort byScoreDesc = l2.insertionSort byScoreDesc := by
  have hp : (l1.insertionSort byScoreDesc).Perm (l2.insertionSort byScoreDesc) :=
    (List.perm_insertionSort _ l1).trans
      (hperm.trans (List.perm_insertionSort _ l2).symm)
  have hnd2 : (l2.map Row.rs_score).Nodup :=
    ((hperm.map Row.rs_score).nodup_iff).mp hnd
  have hnds1 : ((l1.insertionSort byScoreDesc).map Row.rs_score).Nodup :=
    (((List.perm_insertionSort byScoreDesc l1).map Row.rs_score).nodup_iff).mpr hnd
  have hnds2 : ((l2.insertionSort byScoreDesc).map Row.rs_score).Nodup :=
    (((List.perm_insertionSort byScoreDesc l2).map Row.rs_score).nodup_iff).mpr hnd2
  exact List.eq_of_perm_of_sorted hp
    (sorted_strict_of_nodup_scores (List.sorted_insertionSort byScoreDesc l1) hnds1)
    (sorted_strict_of_nodup_scores (List.sorted_insertionSort byScoreDesc l2) hnds2)

/-- C9 (amended): the pipeline output is independent of the completion order
of the concurrent fetches PROVIDED the collected rows carry pairwise
distinct rounded RS scores; with tied scores the emitted rows can depend on
completion order (see the counterexample). -/
theorem scan_deterministic_of_distinct_scores (cfg : Config) (bp : ℚ)
    (priceOf : String → Option PriceResult) (fundOf : String → FundResp)
    (o1 o2 : List String) (rows : List Row)
    (hperm : o1.Perm o2)
    (hrows : scanRows cfg bp priceOf fundOf o1 = .ok rows)
    (hnd : (rows.map Row.rs_score).Nodup) :
    scanOutput cfg bp priceOf fundOf o1 = scanOutput cfg bp priceOf fundOf o2 := by
  have hrel := scanRows_perm cfg bp priceOf fundOf hperm
  rw [hrows] at hrel
  cases h2 : scanRows cfg bp priceOf fundOf o2 with
  | error e => rw [h2] at hrel; exact absurd hrel (by simp [sameUpToPerm])
  | ok rows2 =>
    rw [h2] at hrel
    have hpr : rows.Perm rows2 := hrel
    have hsort := insertionSort_eq_of_perm_of_nodup_scores hpr hnd
    have hlen := hpr.length_eq
    have hemp : rows.isEmpty = rows2.isEmpty := by
      cases rows with
      | nil => rw [hpr.nil_eq.symm]
      | cons a l =>
        cases rows2 with
        | nil => exact absurd hpr.symm.nil_eq (by simp)
        | cons b m => rfl
    rw [scanOutput, scanOutput, hrows, h2]
    show (if rows.isEmpty = true then (Except.error () : Except Unit (List Row))
        else .ok ((rows.insertionSort byScoreDesc).take (max 1 (rows.length / 10)))) =
      (if rows2.isEmpty = true then (Except.error () : Except Unit (List Row))
        else .ok ((rows2.insertionSort byScoreDesc).take (max 1 (rows2.length / 10))))
    rw [hsort, hlen, hemp]

/-- Witness for C9's theorem: two completion orders of the A/B run with
distinct RS scores. -/
theorem scan_deterministic_witness :
    (["A", "B"] : List String).Perm ["B", "A"] ∧
    scanRows cfgEx 1 priceOfAB fundOfEx ["A", "B"] = .ok [rowA, rowB] ∧
    (([rowA, rowB] : List Row).map Row.rs_score).Nodup ∧
    scanOutput cfgEx 1 priceOfAB fundOfEx ["A", "B"] =
      scanOutput cfgEx 1 priceOfAB fundOfEx ["B", "A"] :=
  ⟨List.Perm.swap "B" "A" [], scanAB, by decide,
   scan_deterministic_of_distinct_scores cfgEx 1 priceOfAB fundOfEx
     ["A", "B"] ["B", "A"] [rowA, rowB] (List.Perm.swap "B" "A" []) scanAB (by decide)⟩

/-- C9 counterexample: two runs over identical collected data, differing
only in completion order, emit different single-row result sets when the two
candidates tie exactly on RS score — the output is not bit-identical across
completion orders. -/
theorem scan_order_dependent_cex :
    (scanOutput cfgEx 1 priceOfTie fundOfEx ["A", "B"]).map (List.map Row.ticker) =
      .ok ["A"] ∧
    (scanOutput cfgEx 1 priceOfTie fundOfEx ["B", "A"]).map (List.map Row.ticker) =
      .ok ["B"] ∧
    (["A"] : List String) ≠ ["B"] := by
  refine ⟨?_, ?_, by decide⟩
  · rw [scanOutput, scanTieAB]
    rfl
  · rw [scanOutput, scanTieBA]
    rfl

/-!  C10: the emitted row count.  -/

/-- C10 (confirmed): whenever `m ≥ 1` rows pass every gate, the emitted
result set is non-empty and has exactly `max 1 (m / 10)` rows — in
particular one row is emitted even when ten percent of `m` rounds down to
zero. -/
theorem top_rows_count (cfg : Config) (bp : ℚ)
    (priceOf : String → Option PriceResult) (fundOf : String → FundResp)
    (order : List String) (rows : List Row)
    (h : scanRows cfg bp priceOf fundOf order = .ok rows)
    (hm : 1 ≤ rows.length) :
    (scanOutput cfg bp priceOf fundOf order).map List.length =
      .ok (max 1 (rows.length / 10)) ∧
    scanOutput cfg bp priceOf fundOf order ≠ .ok [] := by
  have hne : rows ≠ [] := by
    cases rows with
    | nil => simp at hm
    | cons a l => simp
  have hout := scanOutput_eq_take cfg bp priceOf fundOf order rows h hne
  have hslen : (rows.insertionSort byScoreDesc).length = rows.length :=
    (List.perm_insertionSort byScoreDesc rows).length_eq
  have hlen : ((rows.insertionSort byScoreDesc).take
      (max 1 (rows.length / 10))).length = max 1 (rows.length / 10) := by
    rw [List.length_take, hslen]
    have hdiv : rows.length / 10 ≤ rows.length := Nat.div_le_self _ _
    omega
  constructor
  · rw [hout, Except.map, hlen]
  · rw [hout]
    intro hcontra
    injection hcontra with hlist
    rw [hlist] at hlen
    simp at hlen
    omega

/-- Witness for C10's theorem at a one-row run: `max 1 (1 / 10) = 1` row is
emitted even though ten percent of one rounds down to zero. -/
theorem top_rows_count_witness :
    scanRows cfgEx 1 priceOfEx fundOfEx ["A"] = .ok [rowA] ∧
    1 ≤ ([rowA] : List Row).length ∧
    (scanOutput cfgEx 1 priceOfEx fundOfEx ["A"]).map List.length =
      .ok (max 1 (([rowA] : List Row).length / 10)) ∧
    scanOutput cfgEx 1 priceOfEx fundOfEx ["A"] ≠ .ok [] :=
  ⟨scanA, by decide,
   top_rows_count cfgEx 1 priceOfEx fundOfEx ["A"] [rowA] scanA (by decide)⟩

end RsDashboard
